import Mathlib

/-
Verification of the semantic-navigation core:
the global compilation-unit cache (package `cache`, file `part_000`) and the
syntax-node classification / resolution engine (`internal/lsp/source/ast.go`).

Part 1 embeds the global cache.  Go pointers to `pkg` objects are modelled as
indices (references) into an explicit heap, so pointer identity is reference
equality; the `sync.RWMutex` is modelled by recording, in program order, the
lock operations and path-map operations each cache function performs.

Part 2 embeds `findInterestingNode`.  The Go `for len(path) > 0` loop may
fail to terminate, and indexes `path[1..3]` without bounds checks, so the
embedding is fuel-indexed and returns an `Outcome` that distinguishes a
normal result from a run-time panic and from fuel exhaustion.

Part 3 embeds the resolver helpers `doEnclosingInterval`, `getPathNodes`,
`fetchIdentFromPathNodes` and `getObjectPathNode`.  The external collaborators
(`astutil.PathEnclosingInterval`, the position index of a file, the import
lookup of the `Package` interface) are oracle functions carried by the file
and package records.
-/

namespace GoTools

/- ### Part 1: the global cache (`part_000`) -/

/-- Events on the global cache: operations on its `sync.RWMutex` and on the
`pathMap` map, recorded in program order.  Mutations of an individual
package object (`addImport`) touch a package field, not the cache map, and
are not events. -/
inductive LockEv where
  | lock
  | unlock
  | rlock
  | runlock
  | mapWrite (key : String)
  | mapRead (key : String)
deriving DecidableEq

/-- One cached package object: the fields of the source struct `pkg` that the
claims inspect — `id`, `pkgPath`, the path reported by its `types` value
(used as the key by `put`), and the `imports` map.  The `files`, `errors`,
`types` and `typesInfo` payloads are opaque to every claim and are not
carried.  Import edges hold references (heap indices) to other package
objects, modelling Go pointers. -/
structure PkgObj where
  id : String
  pkgPath : String
  typesPath : String
  imports : List (String × Nat)
deriving DecidableEq

/-- State of `globalCache`: the `pathMap` (import path → package reference)
plus the heap of allocated package objects.  A reference is an index into
`heap` and stands for a Go pointer, so equality of references is instance
identity. -/
structure CacheState where
  pathMap : List (String × Nat)
  heap : List PkgObj
deriving DecidableEq

def emptyCache : CacheState := ⟨[], []⟩

/-- Go map assignment `m[k] = v`: overwrite the binding of `k` if present,
otherwise append a new binding. -/
def putPath : List (String × Nat) → String → Nat → List (String × Nat)
  | [], k, v => [(k, v)]
  | (k0, v0) :: rest, k, v =>
    if k0 = k then (k, v) :: rest else (k0, v0) :: putPath rest k v

/-- Go map read `m[k]`. -/
def lookupPath : List (String × Nat) → String → Option Nat
  | [], _ => none
  | (k0, v0) :: rest, k => if k0 = k then some v0 else lookupPath rest k

/-- Descriptor `*packages.Package` as consumed by `Add`: identity (`ID`),
its import path (`PkgPath`), the path reported by its `Types` value
(`GetTypes().Path()`), and the imported descriptors (`Imports`, a Go map
iterated in unspecified order, modelled as a list in the order iterated). -/
inductive Descriptor where
  | mk (id : String) (pkgPath : String) (typesPath : String)
       (imports : List Descriptor)

def Descriptor.pkgPath : Descriptor → String
  | .mk _ p _ _ => p

/-- Key used by `put`: `pkg.GetTypes().Path()` of the package object being
inserted. -/
def putKey (st : CacheState) (ref : Nat) : String :=
  match st.heap[ref]? with
  | some o => o.typesPath
  | none => ""

/-- Unexported `globalCache.put`, exactly as in the source: writes the
package into `pathMap` under its types path.  It does not touch the lock —
the exported `Put` wraps it in `mu.Lock()`/`mu.Unlock()`. -/
def putBare (st : CacheState) (ref : Nat) : CacheState :=
  { st with pathMap := putPath st.pathMap (putKey st ref) ref }

/-- Method `pkg.addImport(ip)`: mutates the receiver package object.  The
source stores the imported package under `p.pkgPath` — the receiver's
own import path — not under the imported package's path
(`p.imports[p.pkgPath] = ip`, `part_000` line 139). -/
def heapAddImport (st : CacheState) (pr ref : Nat) : CacheState :=
  match st.heap[pr]? with
  | some p =>
    { st with heap := st.heap.set pr { p with imports := putPath p.imports p.pkgPath ref } }
  | none => st

/-- Lock and map events performed by `globalCache.getGlobalPackage`: a
shared-lock read of `pathMap`. -/
def readTrace (key : String) : List LockEv :=
  [.rlock, .mapRead key, .runlock]

mutual
/-- Method `globalCache.recursiveAdd`, returning the state after the call
together with the trace of lock and `pathMap` events it performs, in
program order: the `getGlobalPackage` read, then the recursive registration
of the imports, then the `c.put(p)` map write — which the source performs
through the unexported, lock-free `put`, with no `mu.Lock()` around it. -/
def recursiveAdd : Descriptor → Option Nat → CacheState → CacheState × List LockEv
  | .mk i p tp imps, parent, st =>
    match lookupPath st.pathMap p with
    | some ref =>
      (match parent with
       | some pr => (heapAddImport st pr ref, readTrace p)
       | none => (st, readTrace p))
    | none =>
      let ref := st.heap.length
      let st1 : CacheState := { st with heap := st.heap ++ [⟨i, p, tp, []⟩] }
      let res := recursiveAddList imps ref st1
      let st3 := putBare res.1 ref
      let st4 := match parent with
        | some pr => heapAddImport st3 pr ref
        | none => st3
      (st4, readTrace p ++ res.2 ++ [.mapWrite (putKey res.1 ref)])

/-- Loop `for _, ip := range pkg.Imports { c.recursiveAdd(ip, p) }`. -/
def recursiveAddList : List Descriptor → Nat → CacheState → CacheState × List LockEv
  | [], _, st => (st, [])
  | d :: ds, pr, st =>
    let r1 := recursiveAdd d (some pr) st
    let r2 := recursiveAddList ds pr r1.1
    (r2.1, r1.2 ++ r2.2)
end

/-- Exported `globalCache.Add`: `recursiveAdd(pkg, nil)` (resulting state). -/
def addC (d : Descriptor) (st : CacheState) : CacheState := (recursiveAdd d none st).1

/-- Trace of lock and map events performed by `Add`. -/
def addTrace (d : Descriptor) (st : CacheState) : List LockEv := (recursiveAdd d none st).2

/-- Exported `globalCache.Get`: shared-lock read of `pathMap`; returns the
reference of the cached package, i.e. the instance `Get` hands back. -/
def getC (st : CacheState) (p : String) : Option Nat := lookupPath st.pathMap p

/-- Exported `globalCache.Put`: takes the exclusive lock, runs `put`,
releases the lock.  Returns the new state and the event trace. -/
def putC (st : CacheState) (ref : Nat) : CacheState × List LockEv :=
  (putBare st ref, [.lock, .mapWrite (putKey st ref), .unlock])

/-- Imports map of the package object at reference `ref`. -/
def importsOf (st : CacheState) (ref : Nat) : List (String × Nat) :=
  match st.heap[ref]? with
  | some o => o.imports
  | none => []

/-- Scan of an event trace tracking whether the exclusive (writer) lock is
held; true iff some `pathMap` write occurs while it is not held.  Shared
(reader) lock operations do not grant write access and leave the flag
unchanged. -/
def writesOutsideLock : Bool → List LockEv → Bool
  | _, [] => false
  | _, .lock :: es => writesOutsideLock true es
  | _, .unlock :: es => writesOutsideLock false es
  | held, .mapWrite _ :: es => !held || writesOutsideLock held es
  | held, _ :: es => writesOutsideLock held es

/-- Method `globalCache.walk` instrumented with the list of packages the
visitor is invoked on, in iteration order: the loop stops right after the
first package on which `walkFunc` returns true.  Packages are given by
reference; the snapshot order of the map iteration is the order of the
list. -/
def walkVisits (f : Nat → Bool) : List Nat → List Nat
  | [] => []
  | u :: us => if f u then [u] else u :: walkVisits f us

/-- Scenario descriptor of the spec: unit `util`, with no imports. -/
def utilDesc : Descriptor := .mk "util-id" "util" "util" []

/-- Scenario descriptor of the spec: unit `main`, importing `util`. -/
def mainDesc : Descriptor := .mk "main-id" "main" "main" [utilDesc]

/-- Cache state after `Add(mainDesc)` starting from the empty cache. -/
def c1State : CacheState := addC mainDesc emptyCache

/- ### Theorems for claims C1, C4, C8, C9 -/

/-- Claim C1 (evaluation at the failing input): after `Add` of the
`main`→`util` scenario on an empty cache, the cache does contain exactly two
units and `Get "util"` returns the unit allocated for `util` (reference 1) —
but `main`'s imports map has no binding under the key `"util"`: the `util`
unit was stored under the key `"main"`, because `addImport` keys the entry
by the receiver's own `pkgPath`.  So `Get "util"` cannot be the instance
stored in `main`'s imports under `"util"`: no such entry exists. -/
theorem c1_add_main_util_eval :
    c1State.pathMap.length = 2 ∧
    getC c1State "util" = some 1 ∧
    getC c1State "main" = some 0 ∧
    lookupPath (importsOf c1State 0) "util" = none ∧
    importsOf c1State 0 = [("main", 1)] := by
  decide

/-- Claim C4 (evaluation at the failing input): registering a fresh unit,
`Add` performs its `pathMap` insertion outside any exclusive critical
section — its event trace contains a map write with the writer lock not
held — whereas the exported `Put` on the same state performs its write
strictly between `Lock` and `Unlock`. -/
theorem c4_add_unlocked_write :
    writesOutsideLock false (addTrace (.mk "a-id" "a" "a" []) emptyCache) = true ∧
    addTrace (.mk "a-id" "a" "a" []) emptyCache =
      [.rlock, .mapRead "a", .runlock, .mapWrite "a"] ∧
    writesOutsideLock false (putC (addC (.mk "a-id" "a" "a" []) emptyCache) 0).2 = false := by
  decide

/-- Claim C8: if the visitor returns true on the k-th unit visited, `walk`
invokes it on the first k units only and skips every remaining unit; if the
visitor never returns true, `walk` invokes it on every unit exactly once. -/
theorem c8_walk_early_exit :
    (∀ (f : Nat → Bool) (pre : List Nat) (u : Nat) (post : List Nat),
       (∀ x, x ∈ pre → f x = false) → f u = true →
       walkVisits f (pre ++ u :: post) = pre ++ [u]) ∧
    (∀ (f : Nat → Bool) (us : List Nat),
       (∀ x, x ∈ us → f x = false) → walkVisits f us = us) := by
  constructor
  · intro f pre u post hpre hu
    induction pre with
    | nil => simp [walkVisits, hu]
    | cons x xs ih =>
      have hx : f x = false := hpre x (by simp)
      simp only [List.cons_append, walkVisits, hx]
      simp only [Bool.false_eq_true, if_false, List.cons.injEq, true_and]
      exact ih (fun y hy => hpre y (by simp [hy]))
  · intro f us h
    induction us with
    | nil => rfl
    | cons x xs ih =>
      have hx : f x = false := h x (by simp)
      simp only [walkVisits, hx, Bool.false_eq_true, if_false, List.cons.injEq, true_and]
      exact ih (fun y hy => h y (by simp [hy]))

/-- Witness for C8 at concrete inputs: with the visitor returning true
exactly on unit 1, walking [0, 1, 2] visits [0, 1]; with a visitor that
never returns true, walking [0, 1, 2] visits all three units. -/
theorem c8_walk_early_exit_witness :
    walkVisits (fun n => n == 1) ([0] ++ 1 :: [2]) = [0] ++ [1] ∧
    walkVisits (fun _ => false) [0, 1, 2] = [0, 1, 2] :=
  ⟨c8_walk_early_exit.1 (fun n => n == 1) [0] 1 [2] (by decide) (by decide),
   c8_walk_early_exit.2 (fun _ => false) [0, 1, 2] (fun _ _ => rfl)⟩

/-- Claim C9: a second `Add` with a root descriptor whose import path is
already registered returns before constructing or inserting anything: the
whole cache state — path map, every unit, every import edge — is unchanged. -/
theorem c9_add_idempotent (d : Descriptor) (st : CacheState) (r : Nat)
    (h : lookupPath st.pathMap d.pkgPath = some r) :
    addC d st = st := by
  cases d with
  | mk i p tp imps =>
    simp only [Descriptor.pkgPath] at h
    simp [addC, recursiveAdd, h]

/-- Witness for C9: re-adding the `main` descriptor to the cache produced by
the first `Add` leaves the state literally unchanged. -/
theorem c9_add_idempotent_witness : addC mainDesc c1State = c1State :=
  c9_add_idempotent mainDesc c1State 0 (by decide)

/- ### Part 2: the node classifier (`findInterestingNode`, ast.go) -/

/-- Classifier verdicts, the `action` constants of the source. -/
inductive Action where
  | actionUnknown
  | actionExpr
  | actionType
  | actionStmt
  | actionPackage
deriving DecidableEq

/-- Go `ast.Spec` nodes as they occur in an ancestor path.  `ValueSpec`
names and the `TypeSpec` name are `*ast.Ident` in Go and are carried as
identifier numbers. -/
inductive Spec where
  | importSpec
  | valueSpec (names : List Nat)
  | typeSpec (name : Nat)
deriving DecidableEq

/-- Syntax nodes, one constructor per case arm of the source's type switch.
Identifier-valued children (`FuncDecl.Name`, `Field.Names`,
`SelectorExpr.Sel`) are identifier numbers, as in the Go AST where those
children are `*ast.Ident`.  `stmt` stands for any `ast.Stmt`, `otherExpr`
for the remaining true `ast.Expr` forms (calls, binary operations, ...),
and `otherNode` for a node matched by no arm of the switch. -/
inductive Node where
  | genDecl (specs : List Spec)
  | funcDecl (name : Nat)
  | spec (s : Spec)
  | stmt
  | arrayType
  | structType
  | funcType
  | interfaceType
  | mapType
  | chanType
  | comment
  | commentGroup
  | file
  | keyValueExpr
  | commClause
  | ellipsis
  | field (names : List Nat)
  | fieldList
  | basicLit
  | selector (sel : Nat)
  | ident (id : Nat)
  | star (id : Nat)
  | otherExpr
  | otherNode
deriving DecidableEq

/-- Symbol kinds distinguished by the `ObjectOf` type switch of the source:
`types.PkgName`, `types.Const`, `types.Label`, `types.TypeName`,
`types.Var`, `types.Func`, `types.Builtin`, `types.Nil`. -/
inductive ObjKind where
  | pkgName
  | constObj
  | labelObj
  | typeName
  | varObj
  | funcObj
  | builtinObj
  | nilObj
deriving DecidableEq

/-- Semantic-model oracle `pkg.GetTypesInfo()`: `objectOf` is
`ObjectOf(ident)` (none when the identifier resolves to no object), `uses`
is `Uses[sel] != nil` for a selector's member identifier, and `isType` is
`Types[starExpr].IsType()`. -/
structure TypesInfo where
  objectOf : Nat → Option ObjKind
  uses : Nat → Bool
  isType : Nat → Bool

/-- Result of a run of the classifier loop: a normal return of the narrowed
path and verdict, a run-time panic (an unguarded index beyond the end of
the path, or the failed `path[2].(*ast.FieldList)` assertion), or
exhaustion of the fuel bounding the number of loop iterations. -/
inductive Outcome where
  | ok (path : List Node) (act : Action)
  | panicked
  | diverged
deriving DecidableEq

/-- Function `findInterestingNode`, fuel-indexed: each iteration of the
`for len(path) > 0` loop consumes one unit of fuel, so `diverged` for every
fuel means the loop never returns.  All descents prepend the child to the
full path exactly as `append([]ast.Node{child}, path...)` does; all ascents
drop the head.  An empty path exits the loop and returns
`nil, actionUnknown` (line 227 of the source). -/
def find (info : TypesInfo) : Nat → List Node → Outcome
  | _, [] => .ok [] .actionUnknown
  | 0, _ :: _ => .diverged
  | fuel+1, n :: rest =>
    match n with
    | .genDecl specs =>
      match specs with
      | [s] => find info fuel (.spec s :: .genDecl specs :: rest)
      | _ => .ok (.genDecl specs :: rest) .actionUnknown
    | .funcDecl name => find info fuel (.ident name :: .funcDecl name :: rest)
    | .spec s =>
      match s with
      | .importSpec => .ok (.spec .importSpec :: rest) .actionPackage
      | .valueSpec names =>
        match names with
        | [x] => find info fuel (.ident x :: .spec (.valueSpec names) :: rest)
        | _ => .ok (.spec (.valueSpec names) :: rest) .actionUnknown
      | .typeSpec x => find info fuel (.ident x :: .spec (.typeSpec x) :: rest)
    | .stmt => .ok (.stmt :: rest) .actionStmt
    | .arrayType => .ok (.arrayType :: rest) .actionType
    | .structType => .ok (.structType :: rest) .actionType
    | .funcType => .ok (.funcType :: rest) .actionType
    | .interfaceType => .ok (.interfaceType :: rest) .actionType
    | .mapType => .ok (.mapType :: rest) .actionType
    | .chanType => .ok (.chanType :: rest) .actionType
    | .comment => .ok (.comment :: rest) .actionUnknown
    | .commentGroup => .ok (.commentGroup :: rest) .actionUnknown
    | .file => .ok (.file :: rest) .actionUnknown
    | .keyValueExpr => .ok (.keyValueExpr :: rest) .actionUnknown
    | .commClause => .ok (.commClause :: rest) .actionUnknown
    | .ellipsis => find info fuel rest
    | .field names =>
      match names with
      | [x] => find info fuel (.ident x :: .field names :: rest)
      | _ => find info fuel rest
    | .fieldList => find info fuel rest
    | .basicLit =>
      match rest with
      | [] => .panicked
      | .spec .importSpec :: rest2 => .ok (.spec .importSpec :: rest2) .actionPackage
      | _ :: _ => .ok (.basicLit :: rest) .actionExpr
    | .selector s =>
      if info.uses s then find info fuel (.ident s :: .selector s :: rest)
      else .ok (.selector s :: rest) .actionUnknown
    | .ident i =>
      match info.objectOf i with
      | some .pkgName => .ok (.ident i :: rest) .actionPackage
      | some .constObj => .ok (.ident i :: rest) .actionExpr
      | some .labelObj => .ok (.ident i :: rest) .actionStmt
      | some .typeName => .ok (.ident i :: rest) .actionType
      | some .varObj =>
        match rest with
        | [] => .panicked
        | .field ns :: rest2 =>
          match rest2 with
          | [] => .panicked
          | .fieldList :: rest3 =>
            (match rest3 with
             | [] => .panicked
             | .structType :: rest4 => .ok (.structType :: rest4) .actionType
             | _ :: _ => .ok (.ident i :: .field ns :: .fieldList :: rest3) .actionExpr)
          | _ :: _ => .panicked
        | _ :: _ => .ok (.ident i :: rest) .actionExpr
      | some .funcObj => .ok (.ident i :: rest) .actionExpr
      | some .builtinObj => find info fuel rest
      | some .nilObj => .ok (.ident i :: rest) .actionExpr
      | none =>
        match rest with
        | [] => .panicked
        | .selector s :: rest2 => .ok (.selector s :: rest2) .actionExpr
        | .field ns :: rest2 => find info fuel (.field ns :: rest2)
        | .file :: rest2 => .ok (.ident i :: .file :: rest2) .actionPackage
        | .spec .importSpec :: rest2 => .ok (.spec .importSpec :: rest2) .actionPackage
        | _ :: _ => .ok (.ident i :: rest) .actionUnknown
    | .star j =>
      if info.isType j then .ok (.star j :: rest) .actionType
      else .ok (.star j :: rest) .actionExpr
    | .otherExpr => .ok (.otherExpr :: rest) .actionExpr
    | .otherNode => find info fuel rest

/-- Semantic model with no resolved objects at all: the situation of an
unanalyzed file ("code in a _test.go file that's not part of the package",
in the words of the source). -/
def infoNone : TypesInfo := ⟨fun _ => none, fun _ => false, fun _ => false⟩

/-- Discriminator for `*ast.Field`. -/
def isField : Node → Bool
  | .field _ => true
  | _ => false

/-- Discriminator for `*ast.FieldList`. -/
def isFieldList : Node → Bool
  | .fieldList => true
  | _ => false

/-- Discriminator for `*ast.File`. -/
def isFile : Node → Bool
  | .file => true
  | _ => false

/-- Discriminator for `*ast.SelectorExpr`. -/
def isSelector : Node → Bool
  | .selector _ => true
  | _ => false

/-- Discriminator for `*ast.ImportSpec`. -/
def isImportSpec : Node → Bool
  | .spec .importSpec => true
  | _ => false

/-- Discriminator for `*ast.StructType`. -/
def isStructType : Node → Bool
  | .structType => true
  | _ => false

/-- Well-formed ancestor chain: nonempty, ends at the file root, and every
field node is immediately followed by its field list, as in every Go tree
(`ast.Field` occurs only inside an `ast.FieldList`). -/
def wfChain : List Node → Bool
  | [] => false
  | [n] => isFile n
  | n :: m :: rest => (!isField n || isFieldList m) && wfChain (m :: rest)

/-- Termination of the classifier on a given input, in the fuel model:
some amount of fuel suffices for the loop to finish. -/
def terminatesOn (info : TypesInfo) (path : List Node) : Prop :=
  ∃ fuel, find info fuel path ≠ .diverged

/-- Ancestor chain of the identifier `x` in `struct { x T }` inside an
unanalyzed file: the identifier is the sole name of its field. -/
def soleFieldChain : List Node :=
  [.ident 0, .field [0], .fieldList, .structType, .file]

/- ### Theorems for claims C2, C3, C5, C10 -/

/-- Prepending a non-field node to a well-formed suffix keeps the chain
well-formed: exactly the shape of every descent step of the classifier. -/
theorem wfChain_cons (c : Node) (p : List Node) (hc : isField c = false)
    (hp : wfChain p = true) : wfChain (c :: p) = true := by
  cases p with
  | nil => simp [wfChain] at hp
  | cons q qs => simp [wfChain, hc, hp]

/-- Dropping the head of a well-formed chain whose head is not the file
root leaves a nonempty, well-formed chain: the shape of every ascent step. -/
theorem wfChain_rest (n : Node) (rest : List Node) (h : wfChain (n :: rest) = true)
    (hn : isFile n = false) : rest ≠ [] ∧ wfChain rest = true := by
  cases rest with
  | nil => simp [wfChain, hn] at h
  | cons q qs =>
    refine ⟨by simp, ?_⟩
    simp only [wfChain, Bool.and_eq_true] at h
    exact h.2

/-- Claim C10 (amended): on every well-formed ancestor chain the classifier
never panics — each unguarded index access (`path[1]`, `path[2]`,
`path[3]`) and the `path[2].(*ast.FieldList)` type assertion occur only
when the chain provides those ancestors with those kinds — for every
semantic model and every amount of fuel. -/
theorem c10_no_panic (fuel : Nat) (info : TypesInfo) :
    ∀ path : List Node, wfChain path = true → find info fuel path ≠ Outcome.panicked := by
  induction fuel with
  | zero =>
    intro path _
    cases path <;> simp [find]
  | succ fuel ih =>
    intro path h
    cases path with
    | nil => simp [find]
    | cons n rest =>
      cases n with
      | genDecl specs =>
        rcases specs with _ | ⟨s, _ | ⟨s2, ss⟩⟩
        · simp [find]
        · simp only [find]
          exact ih _ (wfChain_cons _ _ rfl h)
        · simp [find]
      | funcDecl name =>
        simp only [find]
        exact ih _ (wfChain_cons _ _ rfl h)
      | spec s =>
        rcases s with _ | ns | x
        · simp [find]
        · rcases ns with _ | ⟨x, _ | ⟨y, ys⟩⟩
          · simp [find]
          · simp only [find]
            exact ih _ (wfChain_cons _ _ rfl h)
          · simp [find]
        · simp only [find]
          exact ih _ (wfChain_cons _ _ rfl h)
      | stmt => simp [find]
      | arrayType => simp [find]
      | structType => simp [find]
      | funcType => simp [find]
      | interfaceType => simp [find]
      | mapType => simp [find]
      | chanType => simp [find]
      | comment => simp [find]
      | commentGroup => simp [find]
      | file => simp [find]
      | keyValueExpr => simp [find]
      | commClause => simp [find]
      | ellipsis =>
        simp only [find]
        exact ih _ (wfChain_rest _ _ h rfl).2
      | field names =>
        rcases names with _ | ⟨x, _ | ⟨y, ys⟩⟩
        · simp only [find]
          exact ih _ (wfChain_rest _ _ h rfl).2
        · simp only [find]
          exact ih _ (wfChain_cons _ _ rfl h)
        · simp only [find]
          exact ih _ (wfChain_rest _ _ h rfl).2
      | fieldList =>
        simp only [find]
        exact ih _ (wfChain_rest _ _ h rfl).2
      | basicLit =>
        cases rest with
        | nil => simp [wfChain, isFile] at h
        | cons m rest2 =>
          cases m
          case spec s => cases s <;> simp [find]
          all_goals simp [find]
      | selector s =>
        cases hu : info.uses s with
        | true =>
          simp only [find, hu, if_true]
          exact ih _ (wfChain_cons _ _ rfl h)
        | false => simp [find, hu]
      | ident i =>
        cases ho : info.objectOf i with
        | none =>
          cases rest with
          | nil => simp [wfChain, isFile] at h
          | cons m rest2 =>
            cases m
            case selector s => simp [find, ho]
            case field ns =>
              simp only [find, ho]
              exact ih _ (wfChain_rest _ _ h rfl).2
            case file => simp [find, ho]
            case spec s => cases s <;> simp [find, ho]
            all_goals simp [find, ho]
        | some k =>
          cases k with
          | pkgName => simp [find, ho]
          | constObj => simp [find, ho]
          | labelObj => simp [find, ho]
          | typeName => simp [find, ho]
          | funcObj => simp [find, ho]
          | nilObj => simp [find, ho]
          | builtinObj =>
            simp only [find, ho]
            exact ih _ (wfChain_rest _ _ h rfl).2
          | varObj =>
            cases rest with
            | nil => simp [wfChain, isFile] at h
            | cons m rest2 =>
              cases m
              case field ns =>
                have h2 : wfChain (Node.field ns :: rest2) = true :=
                  (wfChain_rest _ _ h rfl).2
                cases rest2 with
                | nil => simp [wfChain, isFile] at h2
                | cons q rest3 =>
                  have hq : isFieldList q = true := by
                    simp only [wfChain, Bool.and_eq_true, Bool.or_eq_true] at h2
                    rcases h2.1 with hq | hq
                    · simp [isField] at hq
                    · exact hq
                  cases q <;> simp [isFieldList] at hq
                  have h3 : wfChain (Node.fieldList :: rest3) = true :=
                    (wfChain_rest _ _ h2 rfl).2
                  cases rest3 with
                  | nil => simp [wfChain, isFile] at h3
                  | cons t rest4 => cases t <;> simp [find, ho]
              all_goals simp [find, ho]
      | star j =>
        cases hi : info.isType j <;> simp [find, hi]
      | otherExpr => simp [find]
      | otherNode =>
        simp only [find]
        exact ih _ (wfChain_rest _ _ h rfl).2

/-- Two loop iterations on the sole-field-name chain with no resolved
objects reproduce the starting configuration: the identifier ascends to its
field, and the field descends back into its sole name. -/
theorem soleFieldChain_step (n : Nat) :
    find infoNone (n + 2) soleFieldChain = find infoNone n soleFieldChain := rfl

/-- The classifier never returns on the sole-field-name chain: it reports
fuel exhaustion at every fuel. -/
theorem find_soleFieldChain_diverges :
    ∀ n, find infoNone n soleFieldChain = Outcome.diverged := by
  intro n
  induction n using Nat.strong_induction_on with
  | _ n ih =>
    match n with
    | 0 => rfl
    | 1 => rfl
    | n + 2 =>
      rw [soleFieldChain_step]
      exact ih n (by omega)

/-- Claim C10 (counterexample): the sole-field-name chain is a well-formed
bottom-up chain ending at the file root, yet `findInterestingNode` does not
terminate on it — with no resolved symbol, the identifier ascends to its
field and the field descends back into its sole name, forever. -/
theorem c10_divergence_counterexample :
    wfChain soleFieldChain = true ∧ ¬ terminatesOn infoNone soleFieldChain := by
  refine ⟨rfl, ?_⟩
  rintro ⟨n, hn⟩
  exact hn (find_soleFieldChain_diverges n)

/-- Witness for C10: the no-panic theorem applied to the concrete chain of a
package-clause name (identifier under the file root). -/
theorem c10_no_panic_witness :
    wfChain [Node.ident 0, Node.file] = true ∧
    find infoNone 5 [Node.ident 0, Node.file] ≠ Outcome.panicked :=
  ⟨rfl, c10_no_panic 5 infoNone [Node.ident 0, Node.file] rfl⟩

/-- Claim C2 (amended): for an identifier with no resolved object, the
classifier returns `expression` at the parent for a selector parent,
`package-reference` at the identifier for a file-root parent,
`package-reference` at the parent for an import-specifier parent, and
`unknown` at the identifier for every other parent EXCEPT a field parent:
the field case of the source is an empty (comment-only) switch arm, so the
classifier drops the identifier and continues from the field instead of
returning `unknown`. -/
theorem c2_no_object_parent_dispatch (info : TypesInfo) (fuel i : Nat)
    (h : info.objectOf i = none) :
    (∀ s rest, find info (fuel+1) (.ident i :: .selector s :: rest)
       = .ok (.selector s :: rest) .actionExpr) ∧
    (∀ rest, find info (fuel+1) (.ident i :: .file :: rest)
       = .ok (.ident i :: .file :: rest) .actionPackage) ∧
    (∀ rest, find info (fuel+1) (.ident i :: .spec .importSpec :: rest)
       = .ok (.spec .importSpec :: rest) .actionPackage) ∧
    (∀ ns rest, find info (fuel+1) (.ident i :: .field ns :: rest)
       = find info fuel (.field ns :: rest)) ∧
    (∀ p rest, isSelector p = false → isFile p = false → isImportSpec p = false →
       isField p = false →
       find info (fuel+1) (.ident i :: p :: rest)
       = .ok (.ident i :: p :: rest) .actionUnknown) := by
  refine ⟨fun s rest => by simp [find, h], fun rest => by simp [find, h],
          fun rest => by simp [find, h], fun ns rest => by simp [find, h],
          fun p rest h1 h2 h3 h4 => ?_⟩
  cases p
  case spec s => cases s <;> simp_all [find, isImportSpec]
  all_goals simp_all [find, isSelector, isFile, isImportSpec, isField]

/-- Counterexample for claim C2 as stated: an unresolved identifier whose
parent is a two-name field (`struct { f, g int }` in an unanalyzed file)
does not classify as `unknown` — the classifier ascends past the field and
the field list and returns `type` at the struct type. -/
theorem c2_field_parent_counterexample :
    find infoNone 10 [.ident 0, .field [0, 1], .fieldList, .structType, .file]
      = .ok [.structType, .file] .actionType := by decide

/-- Witness for C2 at concrete inputs: the selector-parent branch and the
default (statement-parent) branch of the amended claim. -/
theorem c2_no_object_parent_dispatch_witness :
    find infoNone 6 [.ident 0, .selector 3] = .ok [.selector 3] .actionExpr ∧
    find infoNone 6 [.ident 0, .stmt] = .ok [.ident 0, .stmt] .actionUnknown :=
  ⟨(c2_no_object_parent_dispatch infoNone 5 0 rfl).1 3 [],
   (c2_no_object_parent_dispatch infoNone 5 0 rfl).2.2.2.2 .stmt [] rfl rfl rfl rfl⟩

/-- Claim C3 (amended): when the classifier exhausts its ancestor chain
without a verdict it silently returns the zero value — empty path and
`unknown` action — for every semantic model and fuel; no error, assertion
failure, or panic is surfaced (the function has no error channel at all). -/
theorem c3_exhausted_returns_unknown (info : TypesInfo) (fuel : Nat) :
    find info fuel [] = .ok [] .actionUnknown := by
  cases fuel <;> rfl

/-- Counterexample for claim C3 as stated: a chain exhausted by ascending
past an ellipsis node ends in a silent `(nil, actionUnknown)` return — a
normal `ok` outcome, not a reported failure. -/
theorem c3_exhaustion_counterexample :
    find infoNone 2 [Node.ellipsis] = .ok [] .actionUnknown := by decide

/-- Semantic model resolving every identifier to a variable symbol. -/
def infoVar : TypesInfo := ⟨fun _ => some .varObj, fun _ => false, fun _ => false⟩

/-- Claim C5: an identifier resolving to a variable classifies as
`expression` at the identifier, except when its next three ancestors are
exactly field, field-list and struct-type, in which case the classifier
returns `type` at the struct-type node, three ancestors up. -/
theorem c5_var_struct_tiebreak (info : TypesInfo) (fuel i : Nat)
    (h : info.objectOf i = some .varObj) :
    (∀ ns rest, find info (fuel+1)
        (.ident i :: .field ns :: .fieldList :: .structType :: rest)
        = .ok (.structType :: rest) .actionType) ∧
    (∀ ns t rest, isStructType t = false →
        find info (fuel+1) (.ident i :: .field ns :: .fieldList :: t :: rest)
        = .ok (.ident i :: .field ns :: .fieldList :: t :: rest) .actionExpr) ∧
    (∀ p rest, isField p = false →
        find info (fuel+1) (.ident i :: p :: rest)
        = .ok (.ident i :: p :: rest) .actionExpr) := by
  refine ⟨fun ns rest => by simp [find, h], fun ns t rest ht => ?_,
          fun p rest hp => ?_⟩
  · cases t <;> simp_all [find, isStructType]
  · cases p <;> simp_all [find, isField]

/-- Witness for C5 at concrete inputs: the struct-member tie-break and the
plain expression case. -/
theorem c5_var_struct_tiebreak_witness :
    find infoVar 4 [.ident 0, .field [0], .fieldList, .structType, .file]
      = .ok [.structType, .file] .actionType ∧
    find infoVar 4 [.ident 0, .stmt] = .ok [.ident 0, .stmt] .actionExpr :=
  ⟨(c5_var_struct_tiebreak infoVar 3 0 rfl).1 [0] [.file],
   (c5_var_struct_tiebreak infoVar 3 0 rfl).2.2 .stmt [] rfl⟩

/- ### Part 3: the position/symbol resolver (ast.go) -/

/-- One syntax file of a unit, as `doEnclosingInterval` consumes it:
`valid` is `f.Pos() != token.NoPos` (false when the parser bailed out),
`contains` is the oracle `tokenFileContainsPos(fset.File(f.Pos()), start)`
of the file's position index, and `pathAt` is the external
`astutil.PathEnclosingInterval(f, start, end)`, returning the enclosing
path (empty for Go nil) and the exactness flag. -/
structure AstFile where
  valid : Bool
  contains : Nat → Bool
  pathAt : Nat → Nat → List Node × Bool

/-- Interface `Package` as ast.go consumes it: the import path of
`GetTypes().Path()`, `GetSyntax()` (none for a nil slice), and the
`GetImport` lookup into the unit's imports. -/
inductive Package where
  | mk (path : String) (syn : Option (List AstFile)) (imp : String → Option Package)

def Package.path : Package → String
  | .mk p _ _ => p

def Package.syn : Package → Option (List AstFile)
  | .mk _ s _ => s

def Package.getImport : Package → String → Option Package
  | .mk _ _ f => f

/-- Resolver errors: the text of each `fmt.Errorf` / error type of the
source.  `notFound` is "no node found at ...", `missingImport` is
"import package ... of package ... does not exist", `invalidNode` is the
`InvalidNodeError` of `fetchIdentFromPathNodes`, and `indexPanic` marks the
unguarded `nodes[0]` access on an empty slice (unreachable through
`getObjectPathNode`). -/
inductive Err where
  | notFound (pos : Nat)
  | missingImport (imp : String) (pkg : String)
  | invalidNode (n : Node)
  | indexPanic
deriving DecidableEq

/-- Loop body of `doEnclosingInterval` over the unit's files: skip a file
whose position is invalid, skip a file whose index does not contain the
start offset, skip a file for which the interval search returns a nil path,
and return the first enclosing path found. -/
def enclosingLoop (s e : Nat) : List AstFile → List Node × Bool
  | [] => ([], false)
  | f :: fs =>
    if f.valid = false then enclosingLoop s e fs
    else if f.contains s = false then enclosingLoop s e fs
    else
      match f.pathAt s e with
      | ([], _) => enclosingLoop s e fs
      | (p, exact) => (p, exact)

/-- Function `doEnclosingInterval` (and its thin wrapper
`astPathEnclosingInterval`): nil package or nil syntax yields the zero
value, otherwise the file loop runs. -/
def doEnclosingInterval (pkg : Option Package) (s e : Nat) : List Node × Bool :=
  match pkg with
  | none => ([], false)
  | some p =>
    match p.syn with
    | none => ([], false)
    | some files => enclosingLoop s e files

/-- Function `getPathNodes`: empty path becomes the not-found error. -/
def getPathNodes (pkg : Option Package) (s e : Nat) : Except Err (List Node) :=
  match doEnclosingInterval pkg s e with
  | ([], _) => .error (.notFound s)
  | (ns, _) => .ok ns

/-- Function `fetchIdentFromPathNodes`: the innermost node must be an
identifier, otherwise the `InvalidNodeError` carrying the node. -/
def fetchIdentFromPathNodes : List Node → Except Err Node
  | [] => .error .indexPanic
  | Node.ident i :: _ => .ok (Node.ident i)
  | n :: _ => .error (.invalidNode n)

/-- Symbol (`types.Object`) as `getObjectPathNode` consumes it: its
declaration position `o.Pos()` and the path of its owning package
`o.Pkg().Path()`. -/
structure Object where
  pos : Nat
  pkgPath : String

/-- Function `getObjectPathNode`: search the starting unit at the symbol's
declaration position (the first `getPathNodes` error is discarded — only
emptiness of the path is tested); when empty, look the owning unit up via
`GetImport` and fail with the missing-import error when it is absent,
otherwise search the owning unit; finally require the innermost node to be
an identifier. -/
def getObjectPathNode (pkg : Package) (o : Object) : Except Err Node :=
  match (doEnclosingInterval (some pkg) o.pos o.pos).1 with
  | [] =>
    match pkg.getImport o.pkgPath with
    | none => .error (.missingImport o.pkgPath pkg.path)
    | some ip =>
      match getPathNodes (some ip) o.pos o.pos with
      | .error e => .error e
      | .ok ns => fetchIdentFromPathNodes ns
  | ns => fetchIdentFromPathNodes ns

/- ### Theorems for claims C6 and C7 -/

/-- Claim C6: for a symbol S declared in an imported unit B (so that the
search in the starting unit A finds nothing at S's position), resolution
through A succeeds by consulting B via A's import lookup and returns S's
declaring identifier node; and when B is not available through the lookup,
it fails with the missing-import error. -/
theorem c6_cross_package_resolution (A : Package) (o : Object)
    (hA : (doEnclosingInterval (some A) o.pos o.pos).1 = []) :
    (∀ B i rest ex, A.getImport o.pkgPath = some B →
        doEnclosingInterval (some B) o.pos o.pos = (Node.ident i :: rest, ex) →
        getObjectPathNode A o = .ok (Node.ident i)) ∧
    (A.getImport o.pkgPath = none →
        getObjectPathNode A o = .error (.missingImport o.pkgPath A.path)) := by
  constructor
  · intro B i rest ex hB hsearch
    simp only [getObjectPathNode, hA, hB, getPathNodes, hsearch, fetchIdentFromPathNodes]
  · intro hB
    simp only [getObjectPathNode, hA, hB]

/-- Unit `util`, holding one valid file whose interval search at the
declaration position of the scenario symbol returns an identifier-headed
path. -/
def utilPkg : Package :=
  .mk "util" (some [⟨true, fun _ => true, fun _ _ => ([.ident 7, .file], true)⟩])
    (fun _ => none)

/-- Unit `main`, with no syntax files of its own; its import lookup finds
`util` under the key "util" and nothing else. -/
def mainPkg : Package :=
  .mk "main" (some []) (fun s => if s = "util" then some utilPkg else none)

/-- Unit `main` with an empty import lookup: the owning unit of the symbol
is not available. -/
def mainPkgNoImports : Package :=
  .mk "main" (some []) (fun _ => none)

/-- Scenario symbol: declared at position 5 inside unit `util`. -/
def utilSym : Object := ⟨5, "util"⟩

/-- Witness for C6 at concrete units: resolving the `util` symbol from
`main` returns its declaring identifier; with the import absent, the call
fails with the missing-import error. -/
theorem c6_cross_package_resolution_witness :
    getObjectPathNode mainPkg utilSym = .ok (Node.ident 7) ∧
    getObjectPathNode mainPkgNoImports utilSym
      = .error (.missingImport "util" "main") :=
  ⟨(c6_cross_package_resolution mainPkg utilSym rfl).1 utilPkg 7 [.file] true rfl rfl,
   (c6_cross_package_resolution mainPkgNoImports utilSym rfl).2 rfl⟩

/-- Claim C7: the interval search skips every position-invalid file and
every file whose index does not contain the start offset (first conjunct);
any nonempty result comes from a file that is valid and contains the start
offset (second conjunct); and when every valid file containing the offset
yields an empty path — in particular when no file contains the offset —
`getPathNodes` fails with the not-found error (third conjunct). -/
theorem c7_enclosing_interval_search :
    (∀ (s e : Nat) (f : AstFile) (fs : List AstFile),
       f.valid = false ∨ f.contains s = false →
       enclosingLoop s e (f :: fs) = enclosingLoop s e fs) ∧
    (∀ (s e : Nat) (files : List AstFile) (p : List Node) (ex : Bool),
       enclosingLoop s e files = (p, ex) → p ≠ [] →
       ∃ f, f ∈ files ∧ f.valid = true ∧ f.contains s = true ∧ f.pathAt s e = (p, ex)) ∧
    (∀ (s e : Nat) (P : Package) (files : List AstFile),
       P.syn = some files →
       (∀ f, f ∈ files → f.valid = true → f.contains s = true → (f.pathAt s e).1 = []) →
       getPathNodes (some P) s e = .error (.notFound s)) := by
  have skip : ∀ (s e : Nat) (f : AstFile) (fs : List AstFile),
      f.valid = false ∨ f.contains s = false →
      enclosingLoop s e (f :: fs) = enclosingLoop s e fs := by
    intro s e f fs hf
    rcases hf with hf | hf <;> simp [enclosingLoop, hf]
  have loopEmpty : ∀ (s e : Nat) (files : List AstFile),
      (∀ f, f ∈ files → f.valid = true → f.contains s = true → (f.pathAt s e).1 = []) →
      enclosingLoop s e files = ([], false) := by
    intro s e files hall
    induction files with
    | nil => rfl
    | cons f fs ih =>
      have ihfs := ih (fun g hg => hall g (by simp [hg]))
      cases hv : f.valid with
      | false => rw [skip s e f fs (Or.inl hv)]; exact ihfs
      | true =>
        cases hc : f.contains s with
        | false => rw [skip s e f fs (Or.inr hc)]; exact ihfs
        | true =>
          have hp : (f.pathAt s e).1 = [] := hall f (by simp) hv hc
          simp only [enclosingLoop, hv, hc]
          simp only [Bool.true_eq_false, if_false]
          cases hpe : f.pathAt s e with
          | mk p1 ex1 =>
            rw [hpe] at hp
            simp at hp
            subst hp
            exact ihfs
  refine ⟨skip, ?_, ?_⟩
  · intro s e files
    induction files with
    | nil =>
      intro p ex hloop hne
      simp [enclosingLoop] at hloop
      exact absurd hloop.1 hne
    | cons f fs ih =>
      intro p ex hloop hne
      cases hv : f.valid with
      | false =>
        rw [skip s e f fs (Or.inl hv)] at hloop
        obtain ⟨g, hg, h1, h2, h3⟩ := ih p ex hloop hne
        exact ⟨g, by simp [hg], h1, h2, h3⟩
      | true =>
        cases hc : f.contains s with
        | false =>
          rw [skip s e f fs (Or.inr hc)] at hloop
          obtain ⟨g, hg, h1, h2, h3⟩ := ih p ex hloop hne
          exact ⟨g, by simp [hg], h1, h2, h3⟩
        | true =>
          simp only [enclosingLoop, hv, hc, Bool.true_eq_false, if_false] at hloop
          cases hpe : f.pathAt s e with
          | mk p1 ex1 =>
            rw [hpe] at hloop
            cases p1 with
            | nil =>
              obtain ⟨g, hg, h1, h2, h3⟩ := ih p ex hloop hne
              exact ⟨g, by simp [hg], h1, h2, h3⟩
            | cons q qs =>
              simp only at hloop
              exact ⟨f, by simp, hv, hc, by rw [hpe, hloop]⟩
  · intro s e P files hsyn hall
    simp only [getPathNodes, doEnclosingInterval, hsyn, loopEmpty s e files hall]

/-- File whose position index is invalid (failed parse): `f.Pos()` is
`token.NoPos`. -/
def invalidFile : AstFile := ⟨false, fun _ => true, fun _ _ => ([.stmt], true)⟩

/-- Witness for C7 at concrete inputs: a position-invalid file is skipped
by the loop, and a unit holding only that file makes `getPathNodes` fail
with the not-found error. -/
theorem c7_enclosing_interval_search_witness :
    enclosingLoop 5 6 [invalidFile] = enclosingLoop 5 6 [] ∧
    getPathNodes (some (.mk "p" (some [invalidFile]) (fun _ => none))) 5 6
      = .error (.notFound 5) :=
  ⟨c7_enclosing_interval_search.1 5 6 invalidFile [] (Or.inl rfl),
   c7_enclosing_interval_search.2.2 5 6 (.mk "p" (some [invalidFile]) (fun _ => none))
     [invalidFile] rfl
     (by
       intro f hf hv hc
       simp only [List.mem_singleton] at hf
       subst hf
       simp [invalidFile] at hv)⟩

end GoTools
